import Mathlib

/-!
Verification of the CONTRACT Design-by-Contract framework.

Shallow embedding of the repository's C sources:
* `src/CONTRACT/contract.c` — the failure handler `_contract_fail`;
* `src/CONTRACT/contract_errors.h` — the `posix_error_t` enumeration and the
  declaration of `contract_strerror`.

The definition of `contract_strerror` and the check macros of `contract.h`
are not part of the sources at hand; those are modelled from the spec and
marked as such in their doc comments.

Machine strings (`const char *`) are embedded as `List Char`; the process is
embedded functionally, with the handler's side effects as an explicit event
trace.
-/

namespace ContractSpec

/-! ## Decimal rendering (embedding of printf-style %d and strftime numeric fields) -/

/-- A decimal digit character, as produced by the C library's numeric
conversions. Arguments outside 0..9 never arise in the uses below. -/
def digitCh (n : Nat) : Char :=
  match n with
  | 0 => '0'
  | 1 => '1'
  | 2 => '2'
  | 3 => '3'
  | 4 => '4'
  | 5 => '5'
  | 6 => '6'
  | 7 => '7'
  | 8 => '8'
  | 9 => '9'
  | _ => '*'

/-- Decimal representation of a natural number, most significant digit first,
as produced by printf %d and strftime %Y on nonnegative values. -/
def decList (n : Nat) : List Char :=
  if _h : n < 10 then [digitCh n]
  else decList (n / 10) ++ [digitCh (n % 10)]
termination_by n
decreasing_by exact Nat.div_lt_self (by omega) (by omega)

/-- printf %d on a C int: a minus sign followed by the magnitude when
negative, the plain decimal representation otherwise. -/
def renderInt (i : Int) : List Char :=
  if i < 0 then '-' :: decList i.natAbs else decList i.toNat

/-- strftime's zero-padded two-digit numeric conversions (%m, %d, %H, %M, %S):
values below ten get a leading zero; larger values print all their digits. -/
def pad2 (n : Nat) : List Char :=
  if n < 10 then '0' :: decList n else decList n

/-! Basic lemmas about the decimal rendering. -/

theorem digitCh_ne_newline (n : Nat) : digitCh n ≠ '\n' := by
  unfold digitCh
  split <;> decide

theorem digitCh_ne (n : Nat) (c : Char) (h0 : c ≠ '0') (h1 : c ≠ '1')
    (h2 : c ≠ '2') (h3 : c ≠ '3') (h4 : c ≠ '4') (h5 : c ≠ '5')
    (h6 : c ≠ '6') (h7 : c ≠ '7') (h8 : c ≠ '8') (h9 : c ≠ '9')
    (hs : c ≠ '*') : digitCh n ≠ c := by
  unfold digitCh
  split <;> simp [Ne.symm, h0, h1, h2, h3, h4, h5, h6, h7, h8, h9, hs]

theorem decList_small {n : Nat} (h : n < 10) : decList n = [digitCh n] := by
  rw [decList]
  simp [h]

theorem decList_large {n : Nat} (h : ¬ n < 10) :
    decList n = decList (n / 10) ++ [digitCh (n % 10)] := by
  rw [decList]
  simp [h]

theorem decList_not_mem {c : Char} (hc : c ≠ '0' ∧ c ≠ '1' ∧ c ≠ '2' ∧ c ≠ '3'
    ∧ c ≠ '4' ∧ c ≠ '5' ∧ c ≠ '6' ∧ c ≠ '7' ∧ c ≠ '8' ∧ c ≠ '9' ∧ c ≠ '*') :
    ∀ n : Nat, c ∉ decList n := by
  intro n
  induction n using Nat.strong_induction_on with
  | _ n ih =>
    by_cases h : n < 10
    · rw [decList_small h]
      obtain ⟨h0, h1, h2, h3, h4, h5, h6, h7, h8, h9, hs⟩ := hc
      simp only [List.mem_singleton]
      exact fun hcd => digitCh_ne n c h0 h1 h2 h3 h4 h5 h6 h7 h8 h9 hs hcd.symm
    · rw [decList_large h]
      obtain ⟨h0, h1, h2, h3, h4, h5, h6, h7, h8, h9, hs⟩ := hc
      have hrec := ih (n / 10) (Nat.div_lt_self (by omega) (by omega))
      simp only [List.mem_append, List.mem_singleton]
      rintro (hmem | hcd)
      · exact hrec hmem
      · exact digitCh_ne (n % 10) c h0 h1 h2 h3 h4 h5 h6 h7 h8 h9 hs hcd.symm

theorem decList_length {k : Nat} : ∀ n : Nat, 10 ^ k ≤ n → n < 10 ^ (k + 1) →
    (decList n).length = k + 1 := by
  induction k with
  | zero =>
    intro n _ h2
    rw [decList_small (by omega)]
    rfl
  | succ k ih =>
    intro n h1 h2
    have hten : (10 : Nat) ^ (k + 1) = 10 ^ k * 10 := by ring
    have hn : ¬ n < 10 := by
      have : (10 : Nat) ≤ 10 ^ (k + 1) := by
        calc (10 : Nat) = 10 ^ 1 := by norm_num
        _ ≤ 10 ^ (k + 1) := Nat.pow_le_pow_right (by norm_num) (by omega)
      omega
    rw [decList_large hn]
    have hlo : 10 ^ k ≤ n / 10 := by
      rw [Nat.le_div_iff_mul_le (by norm_num)]
      omega
    have hhi : n / 10 < 10 ^ (k + 1) := by
      rw [Nat.div_lt_iff_lt_mul (by norm_num)]
      have : (10 : Nat) ^ (k + 1 + 1) = 10 ^ (k + 1) * 10 := by ring
      omega
    rw [List.length_append, ih (n / 10) hlo hhi]
    rfl

theorem pad2_length {n : Nat} (h : n < 100) : (pad2 n).length = 2 := by
  unfold pad2
  by_cases h10 : n < 10
  · rw [if_pos h10, decList_small h10]
    rfl
  · rw [if_neg h10]
    exact decList_length n (by omega) (by omega)

theorem pad2_not_mem {c : Char} (hc : c ≠ '0' ∧ c ≠ '1' ∧ c ≠ '2' ∧ c ≠ '3'
    ∧ c ≠ '4' ∧ c ≠ '5' ∧ c ≠ '6' ∧ c ≠ '7' ∧ c ≠ '8' ∧ c ≠ '9' ∧ c ≠ '*')
    (n : Nat) : c ∉ pad2 n := by
  unfold pad2
  have := decList_not_mem hc n
  split
  · intro hmem
    rcases List.mem_cons.mp hmem with h | h
    · exact hc.1 h
    · exact this h
  · exact this

theorem renderInt_not_newline (i : Int) : '\n' ∉ renderInt i := by
  unfold renderInt
  split
  · intro hmem
    rcases List.mem_cons.mp hmem with h | h
    · exact absurd h (by decide)
    · exact decList_not_mem (by decide) _ h
  · exact decList_not_mem (by decide) _

/-! ## Broken-down local time and strftime (contract.c lines 11-22)

`_contract_fail` obtains `localtime(&now)` and renders it with
`strftime(datetime, sizeof(datetime), "%Y-%m-%d %H:%M:%S", tm_info)` into a
20-byte stack buffer. A broken-down time is embedded with the fields already
in display form: `month` is `tm_mon + 1`, `year` is `tm_year + 1900`. -/

structure Tm where
  year : Nat
  month : Nat
  day : Nat
  hour : Nat
  minute : Nat
  second : Nat

/-- The ranges `localtime` guarantees for a broken-down time (seconds reach 60
for leap seconds). -/
def Tm.Valid (t : Tm) : Prop :=
  1 ≤ t.month ∧ t.month ≤ 12 ∧ 1 ≤ t.day ∧ t.day ≤ 31 ∧
  t.hour ≤ 23 ∧ t.minute ≤ 59 ∧ t.second ≤ 60

instance (t : Tm) : Decidable t.Valid := by
  unfold Tm.Valid
  infer_instance

/-- The text produced by the format "%Y-%m-%d %H:%M:%S": year in full decimal,
the other fields zero-padded to two digits. -/
def formatTimestamp (t : Tm) : List Char :=
  decList t.year ++ '-' :: pad2 t.month ++ '-' :: pad2 t.day ++
  ' ' :: pad2 t.hour ++ ':' :: pad2 t.minute ++ ':' :: pad2 t.second

/-- strftime writing into a buffer of `size` bytes: the call succeeds and
stores the text exactly when the text and its terminating NUL fit; otherwise
it returns 0 and the buffer contents are unspecified (`none`). -/
def strftimeBuf (size : Nat) (t : Tm) : Option (List Char) :=
  if (formatTimestamp t).length + 1 ≤ size then some (formatTimestamp t) else none

theorem formatTimestamp_length {t : Tm} (hv : t.Valid)
    (hy1 : 1000 ≤ t.year) (hy2 : t.year ≤ 9999) :
    (formatTimestamp t).length = 19 := by
  obtain ⟨h1, h2, h3, h4, h5, h6, h7⟩ := hv
  have hyear : (decList t.year).length = 4 :=
    decList_length t.year (by norm_num; omega) (by norm_num; omega)
  unfold formatTimestamp
  simp only [List.length_append, List.length_cons, hyear,
    pad2_length (show t.month < 100 by omega),
    pad2_length (show t.day < 100 by omega),
    pad2_length (show t.hour < 100 by omega),
    pad2_length (show t.minute < 100 by omega),
    pad2_length (show t.second < 100 by omega)]

theorem formatTimestamp_not_newline (t : Tm) : '\n' ∉ formatTimestamp t := by
  unfold formatTimestamp
  intro hmem
  have hy := decList_not_mem (show ('\n' ≠ '0' ∧ '\n' ≠ '1' ∧ '\n' ≠ '2'
    ∧ '\n' ≠ '3' ∧ '\n' ≠ '4' ∧ '\n' ≠ '5' ∧ '\n' ≠ '6' ∧ '\n' ≠ '7'
    ∧ '\n' ≠ '8' ∧ '\n' ≠ '9' ∧ '\n' ≠ '*') by decide) t.year
  have hmo := @pad2_not_mem '\n' (by decide) t.month
  have hd := @pad2_not_mem '\n' (by decide) t.day
  have hh := @pad2_not_mem '\n' (by decide) t.hour
  have hmi := @pad2_not_mem '\n' (by decide) t.minute
  have hs := @pad2_not_mem '\n' (by decide) t.second
  have c1 : ('\n' : Char) ≠ '-' := by decide
  have c2 : ('\n' : Char) ≠ ' ' := by decide
  have c3 : ('\n' : Char) ≠ ':' := by decide
  simp only [List.mem_append, List.mem_cons] at hmem
  tauto

/-! ## The error taxonomy (contract_errors.h)

The `posix_error_t` enumeration constants, with the numeric values the header
assigns. In C the enumerators have type int; they are embedded as `Int`. -/

def POSIX_SUCCESS : Int := 0
def POSIX_EPERM : Int := 1
def POSIX_ENOENT : Int := 2
def POSIX_ESRCH : Int := 3
def POSIX_EINTR : Int := 4
def POSIX_EIO : Int := 5
def POSIX_ENXIO : Int := 6
def POSIX_E2BIG : Int := 7
def POSIX_ENOEXEC : Int := 8
def POSIX_EBADF : Int := 9
def POSIX_ECHILD : Int := 10
def POSIX_EAGAIN : Int := 11
def POSIX_EWOULDBLOCK : Int := 11
def POSIX_ENOMEM : Int := 12
def POSIX_EACCES : Int := 13
def POSIX_EFAULT : Int := 14
def POSIX_EBUSY : Int := 16
def POSIX_EEXIST : Int := 17
def POSIX_EXDEV : Int := 18
def POSIX_ENODEV : Int := 19
def POSIX_ENOTDIR : Int := 20
def POSIX_EISDIR : Int := 21
def POSIX_EINVAL : Int := 22
def POSIX_ENFILE : Int := 23
def POSIX_EMFILE : Int := 24
def POSIX_ENOTTY : Int := 25
def POSIX_ETXTBSY : Int := 26
def POSIX_EFBIG : Int := 27
def POSIX_EPIPE : Int := 32
def POSIX_EDOM : Int := 33
def POSIX_ERANGE : Int := 34
def POSIX_EDEADLK : Int := 35
def POSIX_ENAMETOOLONG : Int := 36
def POSIX_ENOTEMPTY : Int := 39
def POSIX_ELOOP : Int := 40
def POSIX_EROFS : Int := 30
def POSIX_EMLINK : Int := 31
def POSIX_EIDRM : Int := 43
def POSIX_ETIME : Int := 62
def POSIX_ENOLINK : Int := 67
def POSIX_EPROTO : Int := 71
def POSIX_EOVERFLOW : Int := 75
def POSIX_ENOLCK : Int := 77
def POSIX_EILSEQ : Int := 84
def POSIX_EMSGSIZE : Int := 90
def POSIX_EPROTOTYPE : Int := 91
def POSIX_EPROTONOSUPPORT : Int := 93
def POSIX_ENOTSUP : Int := 95
def POSIX_EOPNOTSUPP : Int := 95
def POSIX_ENETDOWN : Int := 100
def POSIX_ENETUNREACH : Int := 101
def POSIX_ETIMEDOUT : Int := 110
def POSIX_EHOSTUNREACH : Int := 113
def POSIX_EALREADY : Int := 114
def POSIX_EINPROGRESS : Int := 115
def POSIX_ESTALE : Int := 116
def POSIX_ECANCELED : Int := 125
def POSIX_EOWNERDEAD : Int := 130
def POSIX_ENOTRECOVERABLE : Int := 131

/-- Every value of `posix_error_t`, in declaration order (aliased names
included; they contribute the same numeric value twice). -/
def definedCodes : List Int :=
  [POSIX_SUCCESS, POSIX_EPERM, POSIX_ENOENT, POSIX_ESRCH, POSIX_EINTR,
   POSIX_EIO, POSIX_ENXIO, POSIX_E2BIG, POSIX_ENOEXEC, POSIX_EBADF,
   POSIX_ECHILD, POSIX_EAGAIN, POSIX_EWOULDBLOCK, POSIX_ENOMEM, POSIX_EACCES,
   POSIX_EFAULT, POSIX_EBUSY, POSIX_EEXIST, POSIX_EXDEV, POSIX_ENODEV,
   POSIX_ENOTDIR, POSIX_EISDIR, POSIX_EINVAL, POSIX_ENFILE, POSIX_EMFILE,
   POSIX_ENOTTY, POSIX_ETXTBSY, POSIX_EFBIG, POSIX_EPIPE, POSIX_EDOM,
   POSIX_ERANGE, POSIX_EDEADLK, POSIX_ENAMETOOLONG, POSIX_ENOTEMPTY,
   POSIX_ELOOP, POSIX_EROFS, POSIX_EMLINK, POSIX_EIDRM, POSIX_ETIME,
   POSIX_ENOLINK, POSIX_EPROTO, POSIX_EOVERFLOW, POSIX_ENOLCK, POSIX_EILSEQ,
   POSIX_EMSGSIZE, POSIX_EPROTOTYPE, POSIX_EPROTONOSUPPORT, POSIX_ENOTSUP,
   POSIX_EOPNOTSUPP, POSIX_ENETDOWN, POSIX_ENETUNREACH, POSIX_ETIMEDOUT,
   POSIX_EHOSTUNREACH, POSIX_EALREADY, POSIX_EINPROGRESS, POSIX_ESTALE,
   POSIX_ECANCELED, POSIX_EOWNERDEAD, POSIX_ENOTRECOVERABLE]

/-- Modelled from the spec: the phrase table behind `contract_strerror`, whose
definition is absent from the sources at hand (contract_errors.h only declares
the function, and contract_tools.h describes the `error_strings` blob and the
`errno_to_msg` offset table it is generated from). One entry per numeric key,
in enumeration order, with the phrase each enumerator's documentation comment
gives; aliased names share their single numeric key. -/
def posixPhrases : List (Int × List Char) :=
  [(0, "No error; operation succeeded".toList),
   (1, "Operation not permitted".toList),
   (2, "No such file or directory".toList),
   (3, "No such process".toList),
   (4, "Interrupted system call".toList),
   (5, "Input/output error".toList),
   (6, "No such device or address".toList),
   (7, "Argument list too long".toList),
   (8, "Executable file format error".toList),
   (9, "Bad file descriptor".toList),
   (10, "No child processes".toList),
   (11, "Resource unavailable, try again".toList),
   (12, "Out of memory".toList),
   (13, "Permission denied".toList),
   (14, "Bad address".toList),
   (16, "Device or resource busy".toList),
   (17, "File exists".toList),
   (18, "Cross-device link".toList),
   (19, "No such device".toList),
   (20, "Not a directory".toList),
   (21, "Is a directory".toList),
   (22, "Invalid argument".toList),
   (23, "Too many files open in system".toList),
   (24, "Too many open files".toList),
   (25, "Inappropriate I/O control operation".toList),
   (26, "Text file busy".toList),
   (27, "File too large".toList),
   (32, "Broken pipe".toList),
   (33, "Numerical argument out of domain".toList),
   (34, "Result too large".toList),
   (35, "Resource deadlock would occur".toList),
   (36, "File name too long".toList),
   (39, "Directory not empty".toList),
   (40, "Too many levels of symbolic links".toList),
   (30, "Read-only file system".toList),
   (31, "Too many links".toList),
   (43, "Identifier removed".toList),
   (62, "Timer expired".toList),
   (67, "Link has been severed".toList),
   (71, "Protocol error".toList),
   (75, "Value too large to be stored in data type".toList),
   (77, "No locks available".toList),
   (84, "Illegal byte sequence".toList),
   (90, "Message too long".toList),
   (91, "Protocol wrong type for socket".toList),
   (93, "Protocol not supported".toList),
   (95, "Operation not supported".toList),
   (100, "Network is down".toList),
   (101, "Network is unreachable".toList),
   (110, "Connection timed out".toList),
   (113, "No route to host".toList),
   (114, "Connection already in progress".toList),
   (115, "Operation in progress".toList),
   (116, "Stale file handle".toList),
   (125, "Operation canceled".toList),
   (130, "Previous owner died".toList),
   (131, "State not recoverable".toList)]

/-- The fallback phrase for codes outside the table. -/
def unknownPhrase : List Char := "Unknown error".toList

/-- First-match association lookup over the phrase table. -/
def phraseFind (err : Int) : List (Int × List Char) → Option (List Char)
  | [] => none
  | (k, p) :: rest => if k = err then some p else phraseFind err rest

/-- Modelled from the spec: `contract_strerror`, declared in contract_errors.h
but defined outside the sources at hand. A total, side-effect-free table
lookup from a numeric code to its phrase, answering the fallback phrase for
any code outside the table. -/
def contract_strerror (err : Int) : List Char :=
  (phraseFind err posixPhrases).getD unknownPhrase

theorem phraseFind_eq_none {err : Int} :
    ∀ l : List (Int × List Char), (∀ p ∈ l, p.1 ≠ err) → phraseFind err l = none := by
  intro l
  induction l with
  | nil => intro _; rfl
  | cons hd tl ih =>
    intro h
    unfold phraseFind
    rw [if_neg (h hd (List.mem_cons_self hd tl))]
    exact ih fun p hp => h p (List.mem_cons_of_mem hd hp)

theorem contract_strerror_not_newline (err : Int) : '\n' ∉ contract_strerror err := by
  unfold contract_strerror
  rcases hfind : phraseFind err posixPhrases with _ | p
  · simp only [Option.getD_none]
    decide
  · simp only [Option.getD_some]
    have hmem : ∀ q ∈ posixPhrases, '\n' ∉ q.2 := by decide
    have : ∀ l : List (Int × List Char), (∀ q ∈ l, '\n' ∉ q.2) →
        ∀ r, phraseFind err l = some r → '\n' ∉ r := by
      intro l
      induction l with
      | nil => intro _ r hr; exact absurd hr (by simp [phraseFind])
      | cons hd tl ih =>
        intro hq r hr
        unfold phraseFind at hr
        split at hr
        · cases hr
          exact hq hd (List.mem_cons_self hd tl)
        · exact ih (fun q hql => hq q (List.mem_cons_of_mem hd hql)) r hr
    exact this posixPhrases hmem p hfind

/-! ## Filename extraction (contract.c lines 14-19)

```
const char *filename = file;
const char *last_slash = strrchr(file, '\\');
if (!last_slash) last_slash = strrchr(file, '/');
if (last_slash) filename = last_slash + 1;
```

`strrchr(s, c)` finds the last occurrence of `c`; `last_slash + 1` is the
suffix after it. `afterLast c s` is that suffix, `none` when `c` does not
occur. -/

def afterLast (c : Char) : List Char → Option (List Char)
  | [] => none
  | x :: xs =>
    match afterLast c xs with
    | some t => some t
    | none => if x = c then some xs else none

/-- The filename the handler renders: the suffix after the last backslash
when one occurs, otherwise the suffix after the last forward slash when one
occurs, otherwise the whole path. -/
def basenameOf (s : List Char) : List Char :=
  match afterLast '\\' s with
  | some t => t
  | none =>
    match afterLast '/' s with
    | some t => t
    | none => s

/-- A directory separator of either convention. -/
def isSep (c : Char) : Bool := c = '/' || c = '\\'

/-- The suffix after the last character satisfying `p`, `none` when no
character does. -/
def afterLastP (p : Char → Bool) : List Char → Option (List Char)
  | [] => none
  | x :: xs =>
    match afterLastP p xs with
    | some t => some t
    | none => if p x then some xs else none

/-- The basename as the spec words it: everything up to and including the
last directory separator of either convention is stripped. -/
def specBasename (s : List Char) : List Char :=
  (afterLastP isSep s).getD s

theorem afterLast_eq_none {c : Char} : ∀ {s : List Char}, c ∉ s →
    afterLast c s = none := by
  intro s
  induction s with
  | nil => intro _; rfl
  | cons x xs ih =>
    intro h
    have hx : x ≠ c := fun he => h (he ▸ List.mem_cons_self x xs)
    have hxs : c ∉ xs := fun hm => h (List.mem_cons_of_mem x hm)
    unfold afterLast
    rw [ih hxs, if_neg hx]

theorem afterLast_subset {c : Char} : ∀ {s t : List Char},
    afterLast c s = some t → ∀ x ∈ t, x ∈ s := by
  intro s
  induction s with
  | nil => intro t h; exact absurd h (by simp [afterLast])
  | cons y ys ih =>
    intro t h x hx
    unfold afterLast at h
    rcases htl : afterLast c ys with _ | u
    · rw [htl] at h
      simp only at h
      split at h
      · cases h
        exact List.mem_cons_of_mem y hx
      · cases h
    · rw [htl] at h
      simp only at h
      cases h
      exact List.mem_cons_of_mem y (ih htl x hx)

theorem basenameOf_subset (s : List Char) : ∀ x ∈ basenameOf s, x ∈ s := by
  unfold basenameOf
  rcases h1 : afterLast '\\' s with _ | t
  · rcases h2 : afterLast '/' s with _ | t
    · exact fun x hx => hx
    · exact afterLast_subset h2
  · exact afterLast_subset h1

/-- When no backslash occurs, the combined-separator search agrees with the
forward-slash search. -/
theorem afterLastP_no_backslash : ∀ {s : List Char}, '\\' ∉ s →
    afterLastP isSep s = afterLast '/' s := by
  intro s
  induction s with
  | nil => intro _; rfl
  | cons x xs ih =>
    intro h
    have hx : x ≠ '\\' := fun he => h (he ▸ List.mem_cons_self x xs)
    have hxs : '\\' ∉ xs := fun hm => h (List.mem_cons_of_mem x hm)
    unfold afterLastP afterLast
    rw [ih hxs]
    rcases afterLast '/' xs with _ | t
    · simp only
      by_cases hx2 : x = '/'
      · subst hx2
        simp [isSep]
      · have hsep : isSep x = false := by
          unfold isSep
          simp [hx2, hx]
        simp [hsep, hx2]
    · rfl

/-- When no forward slash occurs, the combined-separator search agrees with
the backslash search. -/
theorem afterLastP_no_fwslash : ∀ {s : List Char}, '/' ∉ s →
    afterLastP isSep s = afterLast '\\' s := by
  intro s
  induction s with
  | nil => intro _; rfl
  | cons x xs ih =>
    intro h
    have hx : x ≠ '/' := fun he => h (he ▸ List.mem_cons_self x xs)
    have hxs : '/' ∉ xs := fun hm => h (List.mem_cons_of_mem x hm)
    unfold afterLastP afterLast
    rw [ih hxs]
    rcases afterLast '\\' xs with _ | t
    · simp only
      by_cases hx2 : x = '\\'
      · subst hx2
        simp [isSep]
      · have hsep : isSep x = false := by
          unfold isSep
          simp [hx2, hx]
        simp [hsep, hx2]
    · rfl

/-! ## The diagnostic record and line (contract.c lines 24-31)

```
fprintf(stderr, "[%s] %s:%d|%s|%d(%s)|%s\n",
        datetime, filename, line, cond, errno, contract_strerror(errno), msg);
```

The argument tuple of that `fprintf` call is embedded as `DiagnosticRecord`
and the text the format string produces as `renderRecord`. `errno` is the
calling thread's last-error value, a parameter `err` here; both the `%d` and
the `%s` conversion that mention it read the same value. -/

structure DiagnosticRecord where
  timestamp : List Char
  filename : List Char
  line : Int
  condText : List Char
  code : Int
  phrase : List Char
  message : List Char

/-- Evaluation of the `fprintf` arguments: the timestamp from `strftime`, the
stripped filename, the call-site line, the condition text, `errno`, the
phrase `contract_strerror(errno)`, and the user message. -/
def mkDiagnosticRecord (t : Tm) (err : Int) (cond msg file : List Char)
    (line : Int) : DiagnosticRecord :=
  { timestamp := formatTimestamp t
    filename := basenameOf file
    line := line
    condText := cond
    code := err
    phrase := contract_strerror err
    message := msg }

/-- The text of the format string "[%s] %s:%d|%s|%d(%s)|%s\n" applied to a
record, literal characters interleaved with the converted arguments in
order. -/
def renderRecord (r : DiagnosticRecord) : List Char :=
  '[' :: r.timestamp ++ ']' :: ' ' :: r.filename ++ ':' :: renderInt r.line ++
  '|' :: r.condText ++ '|' :: renderInt r.code ++ '(' :: r.phrase ++
  ')' :: '|' :: r.message ++ ['\n']

/-- The one diagnostic line `_contract_fail` writes to stderr. -/
def contractFailLine (t : Tm) (err : Int) (cond msg file : List Char)
    (line : Int) : List Char :=
  renderRecord (mkDiagnosticRecord t err cond msg file line)

/-- The spec's field order, assembled from already-rendered fields:
`[timestamp] filename:line|condition_text|code(phrase)|message`,
newline-terminated. -/
def specDiagnosticLine (ts name line cond code phrase msg : List Char) :
    List Char :=
  "[".toList ++ ts ++ "] ".toList ++ name ++ ":".toList ++ line ++
  "|".toList ++ cond ++ "|".toList ++ code ++ "(".toList ++ phrase ++
  ")|".toList ++ msg ++ "\n".toList

/-! ## The handler's effects (contract.c lines 24-32)

`_contract_fail` performs exactly two externally visible actions, in program
order: the `fprintf` to stderr, then `abort()`. `fprintf` reports failure
through its return value, so an unavailable stream does not divert control:
`abort` runs either way. `delivered` records whether the stream accepted the
write. -/

inductive Event where
  | write (line : List Char) (delivered : Bool)
  | abort
deriving DecidableEq

/-- The lines of the write events of a trace, in order. -/
def writesOf (tr : List Event) : List (List Char) :=
  tr.filterMap fun e =>
    match e with
    | Event.write l _ => some l
    | Event.abort => none

/-- The event trace of one `_contract_fail` call: the diagnostic write
(delivered or not, as the stream allows), then abort. The function itself
never returns. -/
def contractFailTrace (streamOk : Bool) (t : Tm) (err : Int)
    (cond msg file : List Char) (line : Int) : List Event :=
  [Event.write (contractFailLine t err cond msg file line) streamOk,
   Event.abort]

/-- What a check invocation does to control flow: return to the caller with
no events, or diverge after the events of the failure handler. -/
inductive CheckResult where
  | ret : CheckResult
  | diverged : List Event → CheckResult
deriving DecidableEq

/-- The events a check emits: none when it returns, the handler's trace when
it diverges. -/
def eventsOf : CheckResult → List Event
  | CheckResult.ret => []
  | CheckResult.diverged tr => tr

/-- Modelled from the spec: the check primitive of contract.h, which is
absent from the sources at hand (demo_contract.h invokes its macros
`require`, `ensure`, `invariant` and the domain-specific variants; every
category is a thin alias of this one primitive). A true condition returns
immediately with no effect; a false condition hands the condition's literal
source text, the message and the call's source location to `_contract_fail`
and never returns. -/
def check (streamOk : Bool) (t : Tm) (err : Int) (cond : Bool)
    (condText msg file : List Char) (line : Int) : CheckResult :=
  if cond then CheckResult.ret
  else CheckResult.diverged (contractFailTrace streamOk t err condText msg file line)

/-! ## Helper lemmas for the claim theorems -/

theorem renderRecord_concat (r : DiagnosticRecord) :
    renderRecord r =
      ('[' :: r.timestamp ++ ']' :: ' ' :: r.filename ++ ':' :: renderInt r.line ++
       '|' :: r.condText ++ '|' :: renderInt r.code ++ '(' :: r.phrase ++
       ')' :: '|' :: r.message) ++ ['\n'] := by
  simp [renderRecord, List.cons_append, List.append_assoc]

/-- A concrete broken-down time used by the witnesses. -/
def sampleTm : Tm := ⟨2024, 5, 17, 12, 34, 56⟩

/-! ## The claims -/

/-- Claim C1: when `_contract_fail` is invoked, the diagnostic line is fully
written to standard error before termination is initiated, and the handler
then unconditionally aborts with no return path, even when the diagnostic
stream is unavailable; termination is never skipped. In the event trace of a
call: abort is the final event and always occurs, the write events are
exactly the one full diagnostic line, and every write event precedes the
first abort, whatever `streamOk` says about the stream. -/
theorem c1_fail_write_then_abort (streamOk : Bool) (t : Tm) (err : Int)
    (cond msg file : List Char) (line : Int) :
    (contractFailTrace streamOk t err cond msg file line).getLast? =
      some Event.abort ∧
    Event.abort ∈ contractFailTrace streamOk t err cond msg file line ∧
    writesOf (contractFailTrace streamOk t err cond msg file line) =
      [contractFailLine t err cond msg file line] ∧
    writesOf ((contractFailTrace streamOk t err cond msg file line).takeWhile
        fun e => decide (e ≠ Event.abort)) =
      writesOf (contractFailTrace streamOk t err cond msg file line) := by
  refine ⟨rfl, ?_, rfl, rfl⟩
  simp [contractFailTrace]

/-- Claim C2: every diagnostic is exactly one newline-terminated line in the
fixed field order [timestamp] basename:line|condition|code(phrase)|message
with the pipe as separator: the rendered line equals the spec's field
assembly, ends in a newline, and (for fields free of embedded newlines)
contains exactly one newline character. -/
theorem c2_line_format (t : Tm) (err : Int) (cond msg file : List Char)
    (line : Int) :
    contractFailLine t err cond msg file line =
      specDiagnosticLine (formatTimestamp t) (basenameOf file)
        (renderInt line) cond (renderInt err) (contract_strerror err) msg ∧
    (contractFailLine t err cond msg file line).getLast? = some '\n' ∧
    ('\n' ∉ cond → '\n' ∉ msg → '\n' ∉ file →
      (contractFailLine t err cond msg file line).count '\n' = 1) := by
  refine ⟨?_, ?_, ?_⟩
  · have h1 : "[".toList = ['['] := rfl
    have h2 : "] ".toList = [']', ' '] := rfl
    have h3 : ":".toList = [':'] := rfl
    have h4 : "|".toList = ['|'] := rfl
    have h5 : "(".toList = ['('] := rfl
    have h6 : ")|".toList = [')', '|'] := rfl
    have h7 : "\n".toList = ['\n'] := rfl
    simp [contractFailLine, renderRecord, mkDiagnosticRecord, specDiagnosticLine,
      h1, h2, h3, h4, h5, h6, h7, List.cons_append, List.append_assoc]
  · rw [contractFailLine, renderRecord_concat, List.getLast?_concat]
  · intro hcond hmsg hfile
    have hts : (formatTimestamp t).count '\n' = 0 :=
      List.count_eq_zero.mpr (formatTimestamp_not_newline t)
    have hfn : (basenameOf file).count '\n' = 0 :=
      List.count_eq_zero.mpr fun hm => hfile (basenameOf_subset file _ hm)
    have hline : (renderInt line).count '\n' = 0 :=
      List.count_eq_zero.mpr (renderInt_not_newline line)
    have herr : (renderInt err).count '\n' = 0 :=
      List.count_eq_zero.mpr (renderInt_not_newline err)
    have hph : (contract_strerror err).count '\n' = 0 :=
      List.count_eq_zero.mpr (contract_strerror_not_newline err)
    have hc : cond.count '\n' = 0 := List.count_eq_zero.mpr hcond
    have hm : msg.count '\n' = 0 := List.count_eq_zero.mpr hmsg
    rw [contractFailLine, renderRecord_concat]
    simp [mkDiagnosticRecord, List.count_append, List.count_cons,
      hts, hfn, hline, herr, hph, hc, hm]

/-- Witness for C2 at a concrete call: timestamp 2024-05-17 12:34:56, errno 2,
condition text "zero", message "General pre-condition failed", source
src/main.c line 42. -/
theorem c2_line_format_witness :
    (contractFailLine sampleTm 2 "zero".toList
      "General pre-condition failed".toList "src/main.c".toList 42).count '\n'
      = 1 :=
  (c2_line_format sampleTm 2 "zero".toList
    "General pre-condition failed".toList "src/main.c".toList 42).2.2
    (by decide) (by decide) (by decide)

/-- Claim C3 as stated is false on the code: for a path mixing both separator
conventions the handler does not strip to the final component. The code
searches for a backslash first and only falls back to the forward slash when
no backslash exists, so "a\b/c.ext" renders "b/c.ext" while stripping at the
last separator of either convention would render "c.ext". -/
theorem c3_basename_counterexample :
    basenameOf ("a\\b/c.ext".toList) = "b/c.ext".toList ∧
    specBasename ("a\\b/c.ext".toList) = "c.ext".toList ∧
    basenameOf ("a\\b/c.ext".toList) ≠ specBasename ("a\\b/c.ext".toList) := by
  decide

/-- Claim C3 amended: for every source path containing separators of at most
one convention, the filename field is the path's final component, everything
up to and including the last directory separator stripped; in particular both
"/a/b/c.ext" and "a\b\c.ext" render "c.ext". (A path mixing both conventions
is stripped at its last backslash instead.) -/
theorem c3_basename_amended :
    (∀ s : List Char, ¬('\\' ∈ s ∧ '/' ∈ s) → basenameOf s = specBasename s) ∧
    basenameOf ("/a/b/c.ext".toList) = "c.ext".toList ∧
    basenameOf ("a\\b\\c.ext".toList) = "c.ext".toList := by
  refine ⟨?_, by decide, by decide⟩
  intro s h
  by_cases hb : '\\' ∈ s
  · have hf : '/' ∉ s := fun hf => h ⟨hb, hf⟩
    unfold basenameOf specBasename
    rw [afterLastP_no_fwslash hf]
    rcases hbs : afterLast '\\' s with _ | u
    · rw [afterLast_eq_none hf]
      rfl
    · rfl
  · unfold basenameOf specBasename
    rw [afterLastP_no_backslash hb, afterLast_eq_none hb]
    rcases afterLast '/' s with _ | u <;> rfl

/-- Witness for the amended C3 at the single-convention path "src/main.c". -/
theorem c3_basename_amended_witness :
    ¬('\\' ∈ "src/main.c".toList ∧ '/' ∈ "src/main.c".toList) ∧
    basenameOf ("src/main.c".toList) = specBasename ("src/main.c".toList) :=
  ⟨by decide, c3_basename_amended.1 ("src/main.c".toList) (by decide)⟩

/-- Claim C4: a check invoked with a true condition returns immediately with
no observable effect and no diagnostic; a check invoked with a false
condition does not return, and its effects are the failure handler's: the
single diagnostic line built from the condition's literal text, the message
and the call's source location, followed by abort. -/
theorem c4_check_dispatch (streamOk : Bool) (t : Tm) (err : Int) (c : Bool)
    (condText msg file : List Char) (line : Int) :
    (c = true →
      check streamOk t err c condText msg file line = CheckResult.ret ∧
      eventsOf (check streamOk t err c condText msg file line) = []) ∧
    (c = false →
      check streamOk t err c condText msg file line ≠ CheckResult.ret ∧
      writesOf (eventsOf (check streamOk t err c condText msg file line)) =
        [contractFailLine t err condText msg file line] ∧
      (eventsOf (check streamOk t err c condText msg file line)).getLast? =
        some Event.abort) := by
  constructor
  · intro hc
    subst hc
    exact ⟨rfl, rfl⟩
  · intro hc
    subst hc
    refine ⟨?_, rfl, rfl⟩
    simp [check]

/-- Witness for C4: a passing check at a concrete call site returns, a
failing one at the same site does not. -/
theorem c4_check_dispatch_witness :
    check true sampleTm 0 true "x > 0".toList "msg".toList "main.c".toList 7 =
      CheckResult.ret ∧
    check true sampleTm 0 false "x > 0".toList "msg".toList "main.c".toList 7 ≠
      CheckResult.ret :=
  ⟨((c4_check_dispatch true sampleTm 0 true "x > 0".toList "msg".toList
      "main.c".toList 7).1 rfl).1,
   ((c4_check_dispatch true sampleTm 0 false "x > 0".toList "msg".toList
      "main.c".toList 7).2 rfl).1⟩

/-- Claim C5: for any integer code outside the defined posix_error_t values,
`contract_strerror` returns the well-defined, non-empty fallback phrase
"Unknown error"; the lookup is total over the integers. -/
theorem c5_unknown_code (n : Int) (hn : n ∉ definedCodes) :
    contract_strerror n = unknownPhrase ∧ unknownPhrase = "Unknown error".toList ∧
    unknownPhrase ≠ [] := by
  have hkeys : ∀ p ∈ posixPhrases, p.1 ∈ definedCodes := by decide
  have hfind : phraseFind n posixPhrases = none :=
    phraseFind_eq_none _ fun p hp he => hn (he ▸ hkeys p hp)
  unfold contract_strerror
  rw [hfind]
  exact ⟨rfl, rfl, by decide⟩

/-- Witness for C5 at the undefined code 15 (a numbering gap of the enum). -/
theorem c5_unknown_code_witness :
    (15 : Int) ∉ definedCodes ∧ contract_strerror 15 = "Unknown error".toList :=
  ⟨by decide, ((c5_unknown_code 15 (by decide)).2.1) ▸ (c5_unknown_code 15 (by decide)).1⟩

/-- Claim C6: for every defined posix_error_t code, `contract_strerror`
returns a non-empty phrase, and two calls with the same code return the same
result (the lookup is a pure function of the code). -/
theorem c6_defined_code_phrase (c : Int) (hc : c ∈ definedCodes) :
    contract_strerror c ≠ [] ∧ contract_strerror c = contract_strerror c := by
  have h : ∀ x ∈ definedCodes, contract_strerror x ≠ [] := by decide
  exact ⟨h c hc, rfl⟩

/-- Witness for C6 at POSIX_ENOENT. -/
theorem c6_defined_code_phrase_witness :
    POSIX_ENOENT ∈ definedCodes ∧ contract_strerror POSIX_ENOENT ≠ [] :=
  ⟨by decide, (c6_defined_code_phrase POSIX_ENOENT (by decide)).1⟩

/-- Claim C7: the aliased enumerators share one numeric value and resolve to
the same single phrase: POSIX_EAGAIN and POSIX_EWOULDBLOCK (both 11),
POSIX_ENOTSUP and POSIX_EOPNOTSUPP (both 95). -/
theorem c7_aliases_same_phrase :
    POSIX_EAGAIN = 11 ∧ POSIX_EWOULDBLOCK = 11 ∧
    POSIX_ENOTSUP = 95 ∧ POSIX_EOPNOTSUPP = 95 ∧
    contract_strerror POSIX_EAGAIN = contract_strerror POSIX_EWOULDBLOCK ∧
    contract_strerror POSIX_ENOTSUP = contract_strerror POSIX_EOPNOTSUPP ∧
    contract_strerror POSIX_EWOULDBLOCK ≠ [] ∧
    contract_strerror POSIX_EOPNOTSUPP ≠ [] := by
  decide

/-- Claim C8: in every diagnostic, the numeric-code field and the phrase
field cohere: the record carries exactly the errno read at the violation and
the phrase is `contract_strerror` of that same code, and the emitted line is
the rendering of that record. -/
theorem c8_code_phrase_coherent (t : Tm) (err : Int) (cond msg file : List Char)
    (line : Int) :
    (mkDiagnosticRecord t err cond msg file line).code = err ∧
    (mkDiagnosticRecord t err cond msg file line).phrase =
      contract_strerror ((mkDiagnosticRecord t err cond msg file line).code) ∧
    contractFailLine t err cond msg file line =
      renderRecord (mkDiagnosticRecord t err cond msg file line) :=
  ⟨rfl, rfl, rfl⟩

/-- Claim C9: when the source path contains no directory separator of either
convention, the filename field is the input path unchanged. -/
theorem c9_no_separator_identity (s : List Char) (hb : '\\' ∉ s)
    (hf : '/' ∉ s) :
    basenameOf s = s ∧
    ∀ (t : Tm) (err : Int) (cond msg : List Char) (line : Int),
      (mkDiagnosticRecord t err cond msg s line).filename = s := by
  have hbase : basenameOf s = s := by
    unfold basenameOf
    rw [afterLast_eq_none hb, afterLast_eq_none hf]
  exact ⟨hbase, fun t err cond msg line => by
    simp [mkDiagnosticRecord, hbase]⟩

/-- Witness for C9 at the separator-free path "main.c". -/
theorem c9_no_separator_identity_witness :
    '\\' ∉ "main.c".toList ∧ '/' ∉ "main.c".toList ∧
    basenameOf ("main.c".toList) = "main.c".toList :=
  ⟨by decide, by decide,
   (c9_no_separator_identity ("main.c".toList) (by decide) (by decide)).1⟩

/-- Claim C10: for every valid broken-down time whose year has four digits,
the "%Y-%m-%d %H:%M:%S" text is exactly 19 characters, so with the
terminating NUL it fits the 20-byte stack buffer and strftime stores the
full-length timestamp without truncation. -/
theorem c10_timestamp_fits (t : Tm) (hv : t.Valid) (hy1 : 1000 ≤ t.year)
    (hy2 : t.year ≤ 9999) :
    (formatTimestamp t).length = 19 ∧
    (formatTimestamp t).length + 1 ≤ 20 ∧
    strftimeBuf 20 t = some (formatTimestamp t) := by
  have hlen := formatTimestamp_length hv hy1 hy2
  refine ⟨hlen, by omega, ?_⟩
  unfold strftimeBuf
  rw [if_pos (by omega)]

/-- Witness for C10 at 2024-05-17 12:34:56. -/
theorem c10_timestamp_fits_witness :
    sampleTm.Valid ∧ (formatTimestamp sampleTm).length = 19 :=
  ⟨by decide, (c10_timestamp_fits sampleTm (by decide) (by decide) (by decide)).1⟩

end ContractSpec
